import Mathlib

/-!
# Verification of the `BatSkyImage` histogram logic of BatAnalysis

This file gives a shallow embedding of the `BatSkyImage` class of
`batanalysis/bat_skyimage.py` and proves properties of its construction,
projection and file-classification logic.

Modelling conventions:
* numpy floating point values are modelled as rationals (`ℚ`); the square
  root applied by `np.sqrt` in the quadrature branch of `project` is kept
  abstract as a function parameter `sqrtFn : ℚ → ℚ`, so statements about the
  quadrature combination are statements about the *structure* of the
  computation (square, sum-collapse, then apply the square-root function).
* a 4-axis histogram `(TIME, IMY, IMX, ENERGY)` is modelled as its shape
  together with a total contents function `Nat → Nat → Nat → Nat → ℚ`
  (indices beyond the shape are irrelevant).  A HEALPix-layout histogram
  `(TIME, HPX, ENERGY)` is represented in the same carrier with the HPX axis
  in the second slot and a phantom third axis of size 1.
* `histpy.Histogram` operations (`*`, `project`, `slice`) are non-mutating
  (they build new histograms); the embedding of `BatSkyImage.project`
  therefore threads the receiver through and returns it together with the
  produced histogram, which lets the frame property be stated and checked.
* fallible Python code (raised exceptions) is modelled with `Except String`.
-/

/-- Per-pixel contents of a 4-axis histogram, indexed as `(t, y, x, e)`. -/
def Pix : Type := Nat → Nat → Nat → Nat → ℚ

/-- Embedding of a constructed `BatSkyImage` object: histogram shape and
contents, the axis edges built by `_set_histogram`, the `gti`/`tbins`/`ebins`
bookkeeping dictionaries, and the `wcs`/`is_mosaic_intermediate`/`image_type`
attributes.  A HEALPix spatial axis is recorded by `hasHPX` with its `nside`
and coordinate-system name. -/
structure BatSkyImage where
  nT : Nat
  nY : Nat
  nX : Nat
  nE : Nat
  contents : Pix
  timeEdges : List ℚ
  energyEdges : List ℚ
  gtiStart : List ℚ
  gtiStop : List ℚ
  gtiCent : List ℚ
  exposure : List ℚ
  tbinsStart : List ℚ
  tbinsStop : List ℚ
  tbinsCent : List ℚ
  ebinsIndex : List Nat
  ebinsEmin : List ℚ
  ebinsEmax : List ℚ
  wcs : Bool
  is_mosaic_intermediate : Bool
  image_type : Option String
  hasHPX : Bool
  hpxNside : Nat
  hpxCoordsys : String

/-- `_file_extension_names` from the source: extension-name keywords that
`from_file` recognises for image extensions. -/
def file_extension_names : List String := ["image", "pcode", "signif", "varmap"]

/-- `_accepted_image_types` from the source: the closed set of valid
`image_type` strings accepted by the constructor. -/
def accepted_image_types : List String := ["flux", "pcode", "snr", "stddev", "exposure"]

/-- Collapse helper: keep the index `i` when the axis is kept, otherwise
sum the values over the whole axis (the ordinary linear-sum collapse of
`histpy.Histogram.project`). -/
def sumIf (keep : Bool) (n : Nat) (i : Nat) (f : Nat → ℚ) : ℚ :=
  if keep then f i else ∑ j in Finset.range n, f j

/-- Embedding of the plain `histpy.Histogram.project` over the labelled axes
of a sky image: every axis whose label is listed in `axis` is kept, every
other axis is collapsed by linear summation.  For a HEALPix image the second
axis is labelled `HPX` (and the phantom third axis has size 1). -/
def histProject (nT nY nX nE : Nat) (hpx : Bool) (axis : List String) (c : Pix) : Pix :=
  fun t y x e =>
    sumIf (axis.contains "TIME") nT t (fun a =>
      sumIf (axis.contains (if hpx then "HPX" else "IMY")) nY y (fun b =>
        sumIf (axis.contains "IMX") nX x (fun d =>
          sumIf (axis.contains "ENERGY") nE e (fun g => c a b d g))))

/-- Embedding of `BatSkyImage.project`.  Returns the receiver (all the
`histpy` operations used by the source are non-mutating), the flag telling
whether the missing-image-type advisory warning was emitted, and the contents
of the produced histogram.

Branches, mirroring the source:
* ENERGY collapsed over more than one bin and the image type is known:
  * non-mosaic `snr`/`stddev`: square the contents, linear-sum collapse,
    then apply the square-root function elementwise;
  * `pcode`/`exposure` (even when mosaic-intermediate): select the last
    energy slice (`self.slice[..., self.end - 1]`, a one-bin ENERGY axis)
    and project that;
  * mosaic-intermediate or `flux`: plain linear-sum collapse;
  * anything else: the policy error.
* otherwise: plain linear-sum collapse, warning first when the image type is
  unset while ENERGY is being collapsed over more than one bin. -/
def BatSkyImage.project (img : BatSkyImage) (sqrtFn : ℚ → ℚ) (axis : List String) :
    Except String (BatSkyImage × Bool × Pix) :=
  if (axis.contains "ENERGY" = false ∧ 1 < img.nE) ∧ img.image_type ≠ none then
    if img.is_mosaic_intermediate = false ∧
        (img.image_type = some "snr" ∨ img.image_type = some "stddev") then
      Except.ok (img, false, fun t y x e =>
        sqrtFn (histProject img.nT img.nY img.nX img.nE img.hasHPX axis
          (fun a b d g => img.contents a b d g * img.contents a b d g) t y x e))
    else if img.image_type = some "pcode" ∨ img.image_type = some "exposure" then
      Except.ok (img, false,
        histProject img.nT img.nY img.nX 1 img.hasHPX axis
          (fun a b d _ => img.contents a b d (img.nE - 1)))
    else if img.is_mosaic_intermediate = true ∨ img.image_type = some "flux" then
      Except.ok (img, false,
        histProject img.nT img.nY img.nX img.nE img.hasHPX axis img.contents)
    else
      Except.error "Cannot do normal sum over energy bins for this type of image."
  else
    Except.ok (img,
      img.image_type.isNone && (!axis.contains "ENERGY") && decide (1 < img.nE),
      histProject img.nT img.nY img.nX img.nE img.hasHPX axis img.contents)

/-- `np.unique(np.sort(np.concatenate((emin, emax))))` applied in both the
contiguous and the non-contiguous branch of the constructor: sort ascending,
then drop duplicates. -/
def uniqueSorted (l : List ℚ) : List ℚ :=
  (List.insertionSort (fun a b => a ≤ b) l).dedup

/-- `np.all(emin[1:] == emax[:-1])`: the energy bins are contiguous. -/
def contiguousBins (emn emx : List ℚ) : Bool :=
  decide (emn.drop 1 = emx.dropLast)

/-- The contiguous fast-path energy-edge computation of the constructor
(lines computing `np.unique(np.sort(combined_edges))` in the `if` branch). -/
def fastPathEnergyEdges (emn emx : List ℚ) : List ℚ :=
  uniqueSorted (emn ++ emx)

/-- The general (non-contiguous) reconciliation energy-edge computation of
the constructor (`final_energybins` in the `else` branch). -/
def generalPathEnergyEdges (emn emx : List ℚ) : List ℚ :=
  uniqueSorted (emn ++ emx)

/-- `np.searchsorted(a, v)` with the default `side="left"` on an ascending
sorted array `a`: the number of entries strictly below `v`. -/
def searchsortedLeft (a : List ℚ) (v : ℚ) : Nat :=
  a.countP (fun x => decide (x < v))

/-- Position of the last occurrence of `t` in `l` (numpy fancy-index
assignment lets the last repeated index win). -/
def lastPosOf (l : List Nat) (t : Nat) : Option Nat :=
  ((l.enum.filter (fun p => p.snd == t)).getLast?).map (fun p => p.fst)

/-- numpy semantics of `A[idx, :] = B` on a zero-filled 4-dimensional array
`A` of shape `baseShape`, with `B` of shape `srcShape` and contents `src`:
* an index out of bounds for axis 0 raises `IndexError`;
* otherwise `B` must broadcast to shape `(len idx, baseShape[1:])`, else a
  broadcast `ValueError` is raised;
* otherwise row `idx[j]` of the result holds (broadcast) row `j` of `B`, and
  rows not named in `idx` keep the zero fill. -/
def fancyAssign0 (baseShape : List Nat) (idx : List Nat) (srcShape : List Nat)
    (src : Pix) : Except String Pix :=
  let b0 := baseShape.headD 0
  let b1 := baseShape.getD 1 0
  let b2 := baseShape.getD 2 0
  let b3 := baseShape.getD 3 0
  let s0 := srcShape.headD 0
  let s1 := srcShape.getD 1 0
  let s2 := srcShape.getD 2 0
  let s3 := srcShape.getD 3 0
  if idx.any (fun i => b0 ≤ i) then
    Except.error "IndexError: index is out of bounds for axis 0"
  else if !((s0 == idx.length || s0 == 1) && (s1 == b1 || s1 == 1)
      && (s2 == b2 || s2 == 1) && (s3 == b3 || s3 == 1)) then
    Except.error "ValueError: could not broadcast input array"
  else
    Except.ok (fun t y x e =>
      match lastPosOf idx t with
      | some j => src (if s0 == 1 then 0 else j) (if s1 == 1 then 0 else y)
          (if s2 == 1 then 0 else x) (if s3 == 1 then 0 else e)
      | none => 0)

/-- The `image_data` argument of the constructor: either a raw numpy array
(shape plus contents) or a `histpy.Histogram` carrying its own TIME/ENERGY
axis edges (and possibly a HEALPix spatial axis). -/
inductive ImageData where
  | raw (shape : List Nat) (contents : Pix)
  | hist (timeEdges energyEdges : List ℚ) (shape : List Nat) (contents : Pix)
      (hasHPX : Bool) (hpxNside : Nat) (hpxCoordsys : String)

/-- The keyword arguments of `BatSkyImage.__init__`.  `tmin`/`tmax` are
(already unit-checked) quantity arrays; a scalar is the one-element list
(the source promotes scalars itself for `emin`/`emax`). -/
structure InitArgs where
  image_data : Option ImageData
  timebins : Option (List ℚ) := none
  tmin : Option (List ℚ) := none
  tmax : Option (List ℚ) := none
  energybins : Option (List ℚ) := none
  emin : Option (List ℚ) := none
  emax : Option (List ℚ) := none
  wcs : Bool := false
  is_mosaic_intermediate : Bool := false
  image_type : Option String := none

/-- The derived time binning of the constructor: either an edge array
(`timebins` or the histogram's TIME axis edges), or the stacked quantity
`u.Quantity([tmin, tmax])` (whose Python `len` is 2, its first axis). -/
inductive TimeSpec where
  | fromEdges (edges : List ℚ)
  | fromMinMax (tmn tmx : List ℚ)

/-- Python `len(timebin_edges)`: the length of the edge array, or 2 for the
stacked `u.Quantity([tmin, tmax])` (a 2-row array). -/
def TimeSpec.len : TimeSpec → Nat
  | .fromEdges edges => edges.length
  | .fromMinMax _ _ => 2

/-- `timebin_edges[:-1]` row-wise (the `TIME_START` entries). -/
def TimeSpec.starts : TimeSpec → List ℚ
  | .fromEdges edges => edges.dropLast
  | .fromMinMax tmn _ => tmn

/-- `timebin_edges[1:]` row-wise (the `TIME_STOP` entries). -/
def TimeSpec.stops : TimeSpec → List ℚ
  | .fromEdges edges => edges.drop 1
  | .fromMinMax _ tmx => tmx

/-- Embedding of the time-binning derivation of `BatSkyImage.__init__`
(the `tmin`/`tmax` consistency checks followed by the
`timebins`/`tmin`+`tmax`/histogram-axis selection). -/
def deriveTimebinEdges (a : InitArgs) : Except String TimeSpec :=
  match a.tmin, a.tmax with
  | some _, none => Except.error "Both tmin and tmax must be defined."
  | none, some _ => Except.error "Both tmin and tmax must be defined."
  | some tmn, some tmx =>
    if tmn.length ≠ tmx.length then
      Except.error "Both tmin and tmax must have the same length."
    else
      match a.timebins with
      | some tb => Except.ok (TimeSpec.fromEdges tb)
      | none => Except.ok (TimeSpec.fromMinMax tmn tmx)
  | none, none =>
    match a.timebins with
    | some tb => Except.ok (TimeSpec.fromEdges tb)
    | none =>
      match a.image_data with
      | some (ImageData.hist tE _ _ _ _ _ _) => Except.ok (TimeSpec.fromEdges tE)
      | _ => Except.error "For a general histogram that has been passed in, the timebins need to be specified"

/-- Embedding of the energy-binning derivation of `BatSkyImage.__init__`:
either the histogram's ENERGY axis edges, or an explicit `energybins` edge
array, or the `emin`/`emax` path with its contiguous fast path and its
general reconciliation path.  The general path rebuilds `parse_data` as a
zero-filled array whose last axis matches the reconciled edges and then
executes `new_hist[idx, :] = parse_data` — a fancy-index assignment on
axis 0 — exactly as the source does. -/
def deriveEnergy (a : InitArgs) (idata : ImageData) : Except String (List ℚ × ImageData) :=
  match a.energybins, a.emin, a.emax with
  | none, none, none =>
    match idata with
    | ImageData.hist _ eE _ _ _ _ _ => Except.ok (eE, idata)
    | _ => Except.error "For a general histogram that has been passed in, the energybins need to be specified"
  | some eb, _, _ => Except.ok (eb, idata)
  | none, some emn, some emx =>
    if contiguousBins emn emx then
      Except.ok (fastPathEnergyEdges emn emx, idata)
    else
      let fin := generalPathEnergyEdges emn emx
      let idx := emn.map (fun v => searchsortedLeft fin.dropLast v)
      let shape := match idata with
        | ImageData.raw s _ => s
        | ImageData.hist _ _ s _ _ _ _ => s
      let c := match idata with
        | ImageData.raw _ c0 => c0
        | ImageData.hist _ _ _ c0 _ _ _ => c0
      let newShape := shape.dropLast ++ [fin.length - 1]
      match fancyAssign0 newShape idx shape c with
      | Except.error e => Except.error e
      | Except.ok c2 => Except.ok (fin, ImageData.raw newShape c2)
  | none, some _, none => Except.error "AttributeError: emax is None"
  | none, none, some _ => Except.error "AttributeError: emin is None"

/-- `self.image_type` validation: `None`, or a member of the accepted set. -/
def checkImageType : Option String → Bool
  | none => true
  | some t => accepted_image_types.contains t

/-- Embedding of the tail of `BatSkyImage.__init__`: the `gti`/`tbins`/
`ebins` bookkeeping followed by `_set_histogram` (shape validation for a raw
array, axis reuse for a histogram input). -/
def assemble (a : InitArgs) (ts : TimeSpec) (energybin_edges : List ℚ)
    (idata : ImageData) : Except String BatSkyImage :=
  let tbStart := ts.starts
  let tbStop := ts.stops
  let gStart := match a.tmin with
    | some tmn => tmn
    | none => tbStart
  let gStop := match a.tmax with
    | some tmx => tmx
    | none => tbStop
  let gCent := (gStart.zip gStop).map (fun p => (p.fst + p.snd) / 2)
  let expo := (gStart.zip gStop).map (fun p => p.snd - p.fst)
  let tCent := (tbStart.zip tbStop).map (fun p => (p.fst + p.snd) / 2)
  let eIndex := match a.emin with
    | some emn => (List.range emn.length).map (fun i => i + 1)
    | none => (List.range (energybin_edges.length - 1)).map (fun i => i + 1)
  let eMin := match a.emin with
    | some emn => emn
    | none => energybin_edges.dropLast
  let eMax := match a.emax with
    | some emx => emx
    | none => energybin_edges.drop 1
  let histTimeEdges := tbStart ++ [tbStop.getLastD 0]
  let histEnergyEdges := eMin ++ [eMax.getLastD 0]
  match idata with
  | ImageData.raw shape c =>
    if shape.length ≠ 4 then
      Except.error "The size of the input sky image needs to be a 4D array arranged as (T,Ny,Nx,E)"
    else if shape.headD 0 ≠ tbStart.length ∨ shape.getD 3 0 ≠ eMin.length then
      Except.error "The shape of the input sky image is not what it should be"
    else
      Except.ok {
        nT := shape.headD 0, nY := shape.getD 1 0, nX := shape.getD 2 0,
        nE := shape.getD 3 0, contents := c,
        timeEdges := histTimeEdges, energyEdges := histEnergyEdges,
        gtiStart := gStart, gtiStop := gStop, gtiCent := gCent,
        exposure := expo,
        tbinsStart := tbStart, tbinsStop := tbStop, tbinsCent := tCent,
        ebinsIndex := eIndex, ebinsEmin := eMin, ebinsEmax := eMax,
        wcs := a.wcs, is_mosaic_intermediate := a.is_mosaic_intermediate,
        image_type := a.image_type,
        hasHPX := false, hpxNside := 0, hpxCoordsys := "" }
  | ImageData.hist tE eE shape c hpx ns cs =>
    Except.ok {
      nT := shape.headD 0, nY := shape.getD 1 0, nX := shape.getD 2 0,
      nE := shape.getD 3 0, contents := c,
      timeEdges := tE, energyEdges := eE,
      gtiStart := gStart, gtiStop := gStop, gtiCent := gCent,
      exposure := expo,
      tbinsStart := tbStart, tbinsStop := tbStop, tbinsCent := tCent,
      ebinsIndex := eIndex, ebinsEmin := eMin, ebinsEmax := eMax,
      wcs := a.wcs, is_mosaic_intermediate := a.is_mosaic_intermediate,
      image_type := a.image_type,
      hasHPX := hpx, hpxNside := ns, hpxCoordsys := cs }

/-- Embedding of `BatSkyImage.__init__`: validation and construction in the
source's order — missing image data, `image_type` membership, time-binning
derivation, the single-timebin check, energy-binning derivation (with the
non-contiguous redistribution), then the bookkeeping and `_set_histogram`. -/
def batSkyImageInit (a : InitArgs) : Except String BatSkyImage :=
  match a.image_data with
  | none => Except.error "A numpy array of a Histpy.Histogram needs to be passed in to initalize a BatSkyImage object"
  | some idata =>
    if checkImageType a.image_type = false then
      Except.error "The image_type must be a string that corresponds to one of the accepted image types"
    else
      match deriveTimebinEdges a with
      | Except.error e => Except.error e
      | Except.ok ts =>
        if ts.len ≠ 2 then
          Except.error "The BatSkyImage object should be initalized with only 1 timebin."
        else
          match deriveEnergy a idata with
          | Except.error e => Except.error e
          | Except.ok (edges, idata2) => assemble a ts edges idata2

/-- What the already-HEALPix branch of `healpix_projection` produces: the
constructor is re-run on `Histogram(self.axes, contents=self.contents,
unit=self.unit)` alone, so the copy keeps the contents and the axes but gets
the default `wcs=None`, `is_mosaic_intermediate=False`, `image_type=None`,
and its bookkeeping re-derived from the axis edges. -/
def wrappedCopy (img : BatSkyImage) : BatSkyImage :=
  let tbStart := img.timeEdges.dropLast
  let tbStop := img.timeEdges.drop 1
  { nT := img.nT, nY := img.nY, nX := img.nX, nE := img.nE,
    contents := img.contents,
    timeEdges := img.timeEdges, energyEdges := img.energyEdges,
    gtiStart := tbStart, gtiStop := tbStop,
    gtiCent := (tbStart.zip tbStop).map (fun p => (p.fst + p.snd) / 2),
    exposure := (tbStart.zip tbStop).map (fun p => p.snd - p.fst),
    tbinsStart := tbStart, tbinsStop := tbStop,
    tbinsCent := (tbStart.zip tbStop).map (fun p => (p.fst + p.snd) / 2),
    ebinsIndex := (List.range (img.energyEdges.length - 1)).map (fun i => i + 1),
    ebinsEmin := img.energyEdges.dropLast, ebinsEmax := img.energyEdges.drop 1,
    wcs := false, is_mosaic_intermediate := false, image_type := none,
    hasHPX := img.hasHPX, hpxNside := img.hpxNside,
    hpxCoordsys := img.hpxCoordsys }

/-- Embedding of `BatSkyImage.healpix_projection(coordsys, nside)`.  The
reprojection of the rectangular grid onto HEALPix pixels is performed by the
external `reproject_to_healpix` library; its per-slice output is supplied as
the oracle `reproj` (with `npix` pixels).  When the image already carries a
HEALPix axis the source instead validates the stored `nside` and coordinate
system against the request and rebuilds a `BatSkyImage` from
`Histogram(self.axes, contents=self.contents, unit=self.unit)`. -/
def BatSkyImage.healpix_projection (img : BatSkyImage) (coordsys : String)
    (nside : Nat) (npix : Nat) (reproj : Pix) : Except String BatSkyImage :=
  if img.hasHPX = false then
    batSkyImageInit { image_data := some (ImageData.hist img.timeEdges
      img.energyEdges [img.nT, npix, 1, img.nE] reproj true nside coordsys) }
  else if img.hpxNside ≠ nside then
    Except.error "The requested healpix nsides for the BatSkyImage is different from what is contained in the object."
  else if img.hpxCoordsys ≠ coordsys then
    Except.error "The requested healpix coordinate system of the BatSkyImage object is different from what is contained in the object."
  else
    batSkyImageInit { image_data := some (ImageData.hist img.timeEdges
      img.energyEdges [img.nT, img.nY, img.nX, img.nE] img.contents
      img.hasHPX img.hpxNside img.hpxCoordsys) }

/-- Python's `pat in s` substring membership on strings. -/
def strHasSub (pat s : String) : Bool :=
  (List.range (s.toList.length + 1)).any (fun i => pat.toList.isPrefixOf (s.toList.drop i))

/-- `from_file`'s classification of an image extension name:
`[name for name in _file_extension_names if name in extname.lower()][0]`.
The argument is the already-lowercased `EXTNAME` (Python's `.lower()` is
applied by the caller at every use site); `none` models the `IndexError` on
an unrecognised name, which the earlier header loop already rejects with a
`ValueError`. -/
def classifyKeyword (extnameLower : String) : Option String :=
  (file_extension_names.filter (fun n => strHasSub n extnameLower)).head?

/-- `from_file`'s translation of the matched extension keyword into the
public `image_type` vocabulary. -/
def mapKeyword (k : String) : String :=
  if strHasSub "image" k then "flux"
  else if strHasSub "signif" k then "snr"
  else if strHasSub "varmap" k then "stddev"
  else k

/-- The `image_type` value that `from_file` passes to the constructor for a
file whose first image extension has the given `EXTNAME`. -/
def fromFileImtype (extname : String) : Option String :=
  (classifyKeyword extname).map mapKeyword

/-- A small concrete sky image used to witness the projection theorems. -/
def mkImg (ty : Option String) (mos : Bool) (nE : Nat) (c : Pix) : BatSkyImage :=
  { nT := 1, nY := 1, nX := 1, nE := nE, contents := c,
    timeEdges := [0, 1],
    energyEdges := (List.range (nE + 1)).map (fun i => (i : ℚ)),
    gtiStart := [0], gtiStop := [1], gtiCent := [1/2], exposure := [1],
    tbinsStart := [0], tbinsStop := [1], tbinsCent := [1/2],
    ebinsIndex := (List.range nE).map (fun i => i + 1),
    ebinsEmin := (List.range nE).map (fun i => (i : ℚ)),
    ebinsEmax := (List.range nE).map (fun i => (i + 1 : ℚ)),
    wcs := true, is_mosaic_intermediate := mos, image_type := ty,
    hasHPX := false, hpxNside := 0, hpxCoordsys := "" }

/-- Two-energy-bin contents holding `3` in the first bin and `4` in the
second bin of every pixel. -/
def pix34 : Pix := fun _ _ _ e => if e = 0 then 3 else 4

/-- Linear-sum collapse evaluated when TIME and both spatial axes are kept
and ENERGY is collapsed: the value at a pixel is the sum over the energy
bins. -/
theorem histProject_keep_spatial (nT nY nX nE : Nat) (hpx : Bool)
    (axis : List String) (c : Pix)
    (hT : axis.contains "TIME" = true)
    (hY : axis.contains (if hpx then "HPX" else "IMY") = true)
    (hX : axis.contains "IMX" = true)
    (hE : axis.contains "ENERGY" = false)
    (t y x e : Nat) :
    histProject nT nY nX nE hpx axis c t y x e = ∑ j in Finset.range nE, c t y x j := by
  have hT2 : "TIME" ∈ axis := by simpa using hT
  have hY2 : (if hpx then "HPX" else "IMY") ∈ axis := by simpa using hY
  have hX2 : "IMX" ∈ axis := by simpa using hX
  have hE2 : "ENERGY" ∉ axis := by simpa using hE
  simp [histProject, sumIf, hT2, hY2, hX2, hE2]

/-- C1: for a `snr`- or `stddev`-typed image that is not a mosaic
intermediate and has more than one energy bin, projecting onto axes that
omit ENERGY squares every element, applies the ordinary linear-sum collapse
of `Histogram.project`, and applies the square-root function elementwise —
quadrature combination, not a linear sum.  In particular, keeping TIME and
the spatial axes with two energy bins holding per-pixel values `a` and `b`
yields `sqrtFn (a*a + b*b)` elementwise. -/
theorem snr_stddev_project_quadrature (img : BatSkyImage) (sqrtFn : ℚ → ℚ)
    (axis : List String)
    (hty : img.image_type = some "snr" ∨ img.image_type = some "stddev")
    (hmos : img.is_mosaic_intermediate = false)
    (hnE : 1 < img.nE)
    (hax : axis.contains "ENERGY" = false) :
    img.project sqrtFn axis = Except.ok (img, false, fun t y x e =>
      sqrtFn (histProject img.nT img.nY img.nX img.nE img.hasHPX axis
        (fun a b d g => img.contents a b d g * img.contents a b d g) t y x e)) ∧
    (axis.contains "TIME" = true →
      axis.contains (if img.hasHPX then "HPX" else "IMY") = true →
      axis.contains "IMX" = true → img.nE = 2 →
      ∀ t y x e, sqrtFn (histProject img.nT img.nY img.nX img.nE img.hasHPX axis
          (fun a b d g => img.contents a b d g * img.contents a b d g) t y x e) =
        sqrtFn (img.contents t y x 0 * img.contents t y x 0 +
          img.contents t y x 1 * img.contents t y x 1)) := by
  have hne : img.image_type ≠ none := by
    rcases hty with h | h <;> rw [h] <;> exact Option.noConfusion
  constructor
  · unfold BatSkyImage.project
    rw [if_pos ⟨⟨hax, hnE⟩, hne⟩, if_pos ⟨hmos, hty⟩]
  · intro hT hY hX h2 t y x e
    rw [histProject_keep_spatial _ _ _ _ _ _ _ hT hY hX hax, h2]
    rw [Finset.sum_range_succ, Finset.sum_range_one]

/-- Witness for C1: a concrete non-mosaic `snr` image with two energy bins
holding `3` and `4`; the projection is the sum-collapse of the squares with
the square-root function applied on top, i.e. `sqrtFn (3*3 + 4*4)` at every
kept pixel. -/
theorem snr_stddev_project_quadrature_witness :
    ((mkImg (some "snr") false 2 pix34).image_type = some "snr" ∨
      (mkImg (some "snr") false 2 pix34).image_type = some "stddev") ∧
    (mkImg (some "snr") false 2 pix34).is_mosaic_intermediate = false ∧
    1 < (mkImg (some "snr") false 2 pix34).nE ∧
    (["TIME", "IMY", "IMX"].contains "ENERGY") = false ∧
    ((mkImg (some "snr") false 2 pix34).project (fun q => q) ["TIME", "IMY", "IMX"] =
      Except.ok (mkImg (some "snr") false 2 pix34, false, fun t y x e =>
        (fun q => q) (histProject 1 1 1 2 false ["TIME", "IMY", "IMX"]
          (fun a b d g => pix34 a b d g * pix34 a b d g) t y x e)) ∧
    ((["TIME", "IMY", "IMX"] : List String).contains "TIME" = true →
      (["TIME", "IMY", "IMX"] : List String).contains
        (if (mkImg (some "snr") false 2 pix34).hasHPX then "HPX" else "IMY") = true →
      (["TIME", "IMY", "IMX"] : List String).contains "IMX" = true →
      (mkImg (some "snr") false 2 pix34).nE = 2 →
      ∀ t y x e, (fun q => q) (histProject 1 1 1 2 false ["TIME", "IMY", "IMX"]
          (fun a b d g => pix34 a b d g * pix34 a b d g) t y x e) =
        (fun q => q) (pix34 t y x 0 * pix34 t y x 0 + pix34 t y x 1 * pix34 t y x 1))) :=
  ⟨Or.inl rfl, rfl, by decide, by decide,
    snr_stddev_project_quadrature (mkImg (some "snr") false 2 pix34)
      (fun q => q) ["TIME", "IMY", "IMX"] (Or.inl rfl) rfl (by decide) (by decide)⟩

/-- C2: for a `pcode`- or `exposure`-typed image with more than one energy
bin, whatever the `is_mosaic_intermediate` flag, projecting onto axes that
omit ENERGY collapses only the last energy slice: the produced contents are
the plain projection of a one-bin histogram holding slice `nE - 1`, so they
do not depend on any other energy bin; keeping TIME and the spatial axes the
result is exactly the last bin's content elementwise. -/
theorem pcode_exposure_project_last_slice (img : BatSkyImage) (sqrtFn : ℚ → ℚ)
    (axis : List String)
    (hty : img.image_type = some "pcode" ∨ img.image_type = some "exposure")
    (hnE : 1 < img.nE)
    (hax : axis.contains "ENERGY" = false) :
    img.project sqrtFn axis = Except.ok (img, false,
      histProject img.nT img.nY img.nX 1 img.hasHPX axis
        (fun a b d _ => img.contents a b d (img.nE - 1))) ∧
    (axis.contains "TIME" = true →
      axis.contains (if img.hasHPX then "HPX" else "IMY") = true →
      axis.contains "IMX" = true →
      ∀ t y x e, histProject img.nT img.nY img.nX 1 img.hasHPX axis
          (fun a b d _ => img.contents a b d (img.nE - 1)) t y x e =
        img.contents t y x (img.nE - 1)) := by
  have hne : img.image_type ≠ none := by
    rcases hty with h | h <;> rw [h] <;> exact Option.noConfusion
  have hnotsnr : ¬(img.is_mosaic_intermediate = false ∧
      (img.image_type = some "snr" ∨ img.image_type = some "stddev")) := by
    rintro ⟨-, h2 | h2⟩ <;> rcases hty with h | h <;> rw [h] at h2 <;>
      exact absurd (Option.some.inj h2) (by decide)
  constructor
  · unfold BatSkyImage.project
    rw [if_pos ⟨⟨hax, hnE⟩, hne⟩, if_neg hnotsnr, if_pos hty]
  · intro hT hY hX t y x e
    rw [histProject_keep_spatial _ _ _ _ _ _ _ hT hY hX hax]
    rw [Finset.sum_range_one]

/-- Witness for C2: a concrete mosaic-intermediate `pcode` image with two
distinct energy bins; the projection is the last slice (value `4`) alone. -/
theorem pcode_exposure_project_last_slice_witness :
    ((mkImg (some "pcode") true 2 pix34).image_type = some "pcode" ∨
      (mkImg (some "pcode") true 2 pix34).image_type = some "exposure") ∧
    1 < (mkImg (some "pcode") true 2 pix34).nE ∧
    (["TIME", "IMY", "IMX"].contains "ENERGY") = false ∧
    ((mkImg (some "pcode") true 2 pix34).project (fun q => q) ["TIME", "IMY", "IMX"] =
      Except.ok (mkImg (some "pcode") true 2 pix34, false,
        histProject 1 1 1 1 false ["TIME", "IMY", "IMX"]
          (fun a b d _ => pix34 a b d 1)) ∧
    ((["TIME", "IMY", "IMX"] : List String).contains "TIME" = true →
      (["TIME", "IMY", "IMX"] : List String).contains
        (if (mkImg (some "pcode") true 2 pix34).hasHPX then "HPX" else "IMY") = true →
      (["TIME", "IMY", "IMX"] : List String).contains "IMX" = true →
      ∀ t y x e, histProject 1 1 1 1 false ["TIME", "IMY", "IMX"]
          (fun a b d _ => pix34 a b d 1) t y x e = pix34 t y x 1)) :=
  ⟨Or.inl rfl, by decide, by decide,
    pcode_exposure_project_last_slice (mkImg (some "pcode") true 2 pix34)
      (fun q => q) ["TIME", "IMY", "IMX"] (Or.inl rfl) (by decide) (by decide)⟩

/-- C5: for an image whose `image_type` is unset, projecting onto axes that
omit ENERGY while more than one energy bin exists emits the advisory warning
(the middle component is `true`) and performs the ordinary linear-sum
collapse of `Histogram.project` on the unmodified contents; keeping TIME and
the spatial axes with two energy bins holding `a` and `b` the result is
`a + b` elementwise. -/
theorem unset_type_project_warns_linear_sum (img : BatSkyImage) (sqrtFn : ℚ → ℚ)
    (axis : List String)
    (hty : img.image_type = none)
    (hnE : 1 < img.nE)
    (hax : axis.contains "ENERGY" = false) :
    img.project sqrtFn axis = Except.ok (img, true,
      histProject img.nT img.nY img.nX img.nE img.hasHPX axis img.contents) ∧
    (axis.contains "TIME" = true →
      axis.contains (if img.hasHPX then "HPX" else "IMY") = true →
      axis.contains "IMX" = true → img.nE = 2 →
      ∀ t y x e, histProject img.nT img.nY img.nX img.nE img.hasHPX axis
          img.contents t y x e = img.contents t y x 0 + img.contents t y x 1) := by
  constructor
  · unfold BatSkyImage.project
    rw [if_neg (by rintro ⟨-, h⟩; exact h hty)]
    rw [hty, hax]
    simp [hnE]
  · intro hT hY hX h2 t y x e
    rw [histProject_keep_spatial _ _ _ _ _ _ _ hT hY hX hax, h2]
    rw [Finset.sum_range_succ, Finset.sum_range_one]

/-- Witness for C5: a concrete image built without an `image_type`, with two
energy bins holding `3` and `4`; the warning flag is set and the collapse is
the linear sum `3 + 4`. -/
theorem unset_type_project_warns_linear_sum_witness :
    (mkImg none false 2 pix34).image_type = none ∧
    1 < (mkImg none false 2 pix34).nE ∧
    (["TIME", "IMY", "IMX"].contains "ENERGY") = false ∧
    ((mkImg none false 2 pix34).project (fun q => q) ["TIME", "IMY", "IMX"] =
      Except.ok (mkImg none false 2 pix34, true,
        histProject 1 1 1 2 false ["TIME", "IMY", "IMX"] pix34) ∧
    ((["TIME", "IMY", "IMX"] : List String).contains "TIME" = true →
      (["TIME", "IMY", "IMX"] : List String).contains
        (if (mkImg none false 2 pix34).hasHPX then "HPX" else "IMY") = true →
      (["TIME", "IMY", "IMX"] : List String).contains "IMX" = true →
      (mkImg none false 2 pix34).nE = 2 →
      ∀ t y x e, histProject 1 1 1 2 false ["TIME", "IMY", "IMX"] pix34 t y x e =
        pix34 t y x 0 + pix34 t y x 1)) :=
  ⟨rfl, by decide, by decide,
    unset_type_project_warns_linear_sum (mkImg none false 2 pix34)
      (fun q => q) ["TIME", "IMY", "IMX"] rfl (by decide) (by decide)⟩

/-- C9: for every image whose `image_type` belongs to the constructor's
accepted set, `project` never reaches its final policy-error branch — every
accepted type is handled by the quadrature, last-slice, or linear-sum branch
for both values of `is_mosaic_intermediate`. -/
theorem valid_type_project_ok (img : BatSkyImage) (sqrtFn : ℚ → ℚ)
    (axis : List String) (t : String)
    (hty : img.image_type = some t)
    (hmem : t ∈ accepted_image_types) :
    ∃ out, img.project sqrtFn axis = Except.ok out := by
  have hmem5 : t = "flux" ∨ t = "pcode" ∨ t = "snr" ∨ t = "stddev" ∨ t = "exposure" := by
    simpa [accepted_image_types] using hmem
  unfold BatSkyImage.project
  split
  case isTrue h =>
    split
    case isTrue h1 => exact ⟨_, rfl⟩
    case isFalse h1 =>
      split
      case isTrue h2 => exact ⟨_, rfl⟩
      case isFalse h2 =>
        split
        case isTrue h3 => exact ⟨_, rfl⟩
        case isFalse h3 =>
          exfalso
          have hmosf : img.is_mosaic_intermediate = false := by
            cases hmos : img.is_mosaic_intermediate
            · rfl
            · exact absurd (Or.inl hmos) h3
          rcases hmem5 with h5 | h5 | h5 | h5 | h5 <;> subst h5
          · exact h3 (Or.inr hty)
          · exact h2 (Or.inl hty)
          · exact h1 ⟨hmosf, Or.inl hty⟩
          · exact h1 ⟨hmosf, Or.inr hty⟩
          · exact h2 (Or.inr hty)
  case isFalse h => exact ⟨_, rfl⟩

/-- Witness for C9: a concrete mosaic-intermediate `exposure` image projected
over two energy bins succeeds. -/
theorem valid_type_project_ok_witness :
    (mkImg (some "exposure") true 2 pix34).image_type = some "exposure" ∧
    "exposure" ∈ accepted_image_types ∧
    ∃ out, (mkImg (some "exposure") true 2 pix34).project (fun q => q)
      ["TIME", "IMY", "IMX"] = Except.ok out :=
  ⟨rfl, by decide,
    valid_type_project_ok (mkImg (some "exposure") true 2 pix34)
      (fun q => q) ["TIME", "IMY", "IMX"] "exposure" rfl (by decide)⟩

/-- C10: whenever `project` succeeds, the first component of the result is
the untouched receiver: every branch of the method builds a fresh histogram
from non-mutating `histpy` operations, so the image's contents, axis edges,
`image_type`, `is_mosaic_intermediate` flag and `gti`/`tbins`/`ebins`
bookkeeping are all identical before and after the call. -/
theorem project_leaves_receiver_unchanged (img : BatSkyImage) (sqrtFn : ℚ → ℚ)
    (axis : List String) (out : BatSkyImage × Bool × Pix)
    (h : img.project sqrtFn axis = Except.ok out) : out.1 = img := by
  unfold BatSkyImage.project at h
  split at h
  · split at h
    · injection h with h'; rw [← h']
    · split at h
      · injection h with h'; rw [← h']
      · split at h
        · injection h with h'; rw [← h']
        · exact Except.noConfusion h
  · injection h with h'; rw [← h']

/-- Witness for C10: a concrete `flux` projection succeeds and hands back the
receiver unchanged. -/
theorem project_leaves_receiver_unchanged_witness :
    (mkImg (some "flux") false 2 pix34).project (fun q => q) ["TIME"] =
      Except.ok (mkImg (some "flux") false 2 pix34, false,
        histProject 1 1 1 2 false ["TIME"] pix34) ∧
    (mkImg (some "flux") false 2 pix34, false,
        histProject 1 1 1 2 false ["TIME"] pix34).1 =
      mkImg (some "flux") false 2 pix34 :=
  ⟨by rfl, project_leaves_receiver_unchanged (mkImg (some "flux") false 2 pix34)
    (fun q => q) ["TIME"]
    (mkImg (some "flux") false 2 pix34, false,
      histProject 1 1 1 2 false ["TIME"] pix34) (by rfl)⟩

/-- C6: on contiguous `emin`/`emax` boundary arrays the fast-path edge
computation of the constructor and the general reconciliation path compute
the same energy edge sequence (both are
`np.unique(np.sort(np.concatenate((emin, emax))))`). -/
theorem contiguous_fast_path_eq_general (emn emx : List ℚ)
    (h : contiguousBins emn emx = true) :
    fastPathEnergyEdges emn emx = generalPathEnergyEdges emn emx := rfl

/-- Witness for C6: a concrete contiguous pair of boundary arrays. -/
theorem contiguous_fast_path_eq_general_witness :
    contiguousBins [1, 2] [2, 3] = true ∧
    fastPathEnergyEdges [1, 2] [2, 3] = generalPathEnergyEdges [1, 2] [2, 3] :=
  ⟨by decide, contiguous_fast_path_eq_general [1, 2] [2, 3] (by decide)⟩

/-- C4: whenever the derived time-bin edge sequence of a construction
attempt has a Python length other than 2 (more or fewer than one time bin),
the constructor raises a validation error: no `BatSkyImage` instance is
produced. -/
theorem multi_timebin_init_rejected (a : InitArgs) (ts : TimeSpec)
    (hts : deriveTimebinEdges a = Except.ok ts)
    (hlen : ts.len ≠ 2) :
    ∀ img, batSkyImageInit a ≠ Except.ok img := by
  intro img hcontra
  unfold batSkyImageInit at hcontra
  split at hcontra
  · exact Except.noConfusion hcontra
  · split at hcontra
    · exact Except.noConfusion hcontra
    · split at hcontra
      · exact Except.noConfusion hcontra
      · rename_i ts' hok
        rw [hts] at hok
        obtain rfl : ts = ts' := Except.ok.inj hok
        rw [if_pos hlen] at hcontra
        exact Except.noConfusion hcontra

/-- Construction arguments with a 3-edge (2-bin) `timebins` array. -/
def multiTimebinArgs : InitArgs :=
  { image_data := some (ImageData.raw [2, 1, 1, 2] pix34),
    timebins := some [0, 1, 2],
    energybins := some [1, 2, 3],
    wcs := true }

/-- Witness for C4: constructing with `timebins` holding 3 edges fails. -/
theorem multi_timebin_init_rejected_witness :
    deriveTimebinEdges multiTimebinArgs =
      Except.ok (TimeSpec.fromEdges [0, 1, 2]) ∧
    (TimeSpec.fromEdges ([0, 1, 2] : List ℚ)).len ≠ 2 ∧
    ∀ img, batSkyImageInit multiTimebinArgs ≠ Except.ok img :=
  ⟨by rfl, by decide,
    multi_timebin_init_rejected multiTimebinArgs
      (TimeSpec.fromEdges [0, 1, 2]) (by rfl) (by decide)⟩

/-- Construction arguments with non-contiguous energy bins `[1,2]∪[3,4] keV`
and a `(1, 1, 1, 2)` image array: the claimed redistribution would place the
two slices at ENERGY-axis indices 0 and 2 of the enlarged zero-filled
`(1, 1, 1, 3)` array. -/
def nonContiguousArgs : InitArgs :=
  { image_data := some (ImageData.raw [1, 1, 1, 2] pix34),
    timebins := some [0, 1],
    emin := some [1, 3], emax := some [2, 4],
    wcs := true, image_type := some "flux" }

/-- C3 (code bug): on the non-contiguous input above, the constructor's
redistribution executes `new_hist[idx, :] = parse_data`, fancy-indexing
axis 0 (TIME) with the energy insertion indices `[0, 2]`; since axis 0 has
size 1, this raises `IndexError` instead of placing the original energy
slices at indices 0 and 2 of the last (ENERGY) axis as the enlarged
zero-filled array — built with its *last* axis matching the reconciled
edges — was prepared for. -/
theorem noncontiguous_redistribution_indexerror :
    batSkyImageInit nonContiguousArgs =
      Except.error "IndexError: index is out of bounds for axis 0" := by
  rfl

/-- C7: on an image that already carries a HEALPix axis,
`healpix_projection` raises a mismatch error whenever the requested `nside`
or coordinate-system differs from what is stored, and when both match it
returns the wrapped copy (same contents and axes, re-constructed with
default `wcs`/`is_mosaic_intermediate`/`image_type`) instead of
reprojecting. -/
theorem healpix_projection_hpx_branch (img : BatSkyImage) (coordsys : String)
    (nside npix : Nat) (reproj : Pix)
    (hhpx : img.hasHPX = true)
    (hlen : img.timeEdges.length = 2) :
    ((img.hpxNside ≠ nside ∨ img.hpxCoordsys ≠ coordsys) →
      ∃ e, img.healpix_projection coordsys nside npix reproj = Except.error e) ∧
    (img.hpxNside = nside → img.hpxCoordsys = coordsys →
      img.healpix_projection coordsys nside npix reproj =
        Except.ok (wrappedCopy img)) := by
  have hfalse : ¬(img.hasHPX = false) := by rw [hhpx]; exact Bool.noConfusion
  constructor
  · rintro (hns | hcs)
    · unfold BatSkyImage.healpix_projection
      rw [if_neg hfalse, if_pos hns]
      exact ⟨_, rfl⟩
    · unfold BatSkyImage.healpix_projection
      rw [if_neg hfalse]
      by_cases hns : img.hpxNside ≠ nside
      · rw [if_pos hns]; exact ⟨_, rfl⟩
      · rw [if_neg hns, if_pos hcs]; exact ⟨_, rfl⟩
  · intro hns hcs
    unfold BatSkyImage.healpix_projection
    rw [if_neg hfalse, if_neg (by simp [hns]), if_neg (by simp [hcs])]
    unfold batSkyImageInit deriveTimebinEdges
    simp only [checkImageType]
    rw [if_neg (by simp)]
    simp only [TimeSpec.len]
    rw [if_neg (by rw [hlen]; exact fun hc => hc rfl)]
    unfold deriveEnergy assemble wrappedCopy
    simp [TimeSpec.starts, TimeSpec.stops, hhpx]

/-- A concrete image already carrying a HEALPix axis at `nside=128` in
galactic coordinates. -/
def hpxImg : BatSkyImage :=
  { nT := 1, nY := 3, nX := 1, nE := 1, contents := pix34,
    timeEdges := [0, 1], energyEdges := [1, 2],
    gtiStart := [0], gtiStop := [1], gtiCent := [1/2], exposure := [1],
    tbinsStart := [0], tbinsStop := [1], tbinsCent := [1/2],
    ebinsIndex := [1], ebinsEmin := [1], ebinsEmax := [2],
    wcs := false, is_mosaic_intermediate := false, image_type := some "pcode",
    hasHPX := true, hpxNside := 128, hpxCoordsys := "galactic" }

/-- Witness for C7: requesting `nside=64` on the stored-`nside=128` HEALPix
image falls under the mismatch part of the theorem. -/
theorem healpix_projection_hpx_branch_witness :
    hpxImg.hasHPX = true ∧ hpxImg.timeEdges.length = 2 ∧
    (((hpxImg.hpxNside ≠ 64 ∨ hpxImg.hpxCoordsys ≠ "galactic") →
      ∃ e, hpxImg.healpix_projection "galactic" 64 0 pix34 = Except.error e) ∧
    (hpxImg.hpxNside = 64 → hpxImg.hpxCoordsys = "galactic" →
      hpxImg.healpix_projection "galactic" 64 0 pix34 =
        Except.ok (wrappedCopy hpxImg))) :=
  ⟨rfl, by decide,
    healpix_projection_hpx_branch hpxImg "galactic" 64 0 pix34 rfl (by decide)⟩

/-- C8: whenever `from_file`'s classification of an image extension name
succeeds with keyword `k`, the `image_type` handed to the constructor is
`mapKeyword k`, with "image" mapped to "flux", "signif" to "snr", "varmap"
to "stddev", and "pcode" to itself; the keyword is never "exposure" (it is
not a recognised extension name), and the mapped value always belongs to
the constructor's accepted set, so the returned image carries it. -/
theorem from_file_imtype_mapping (s k : String)
    (hk : classifyKeyword s = some k) :
    fromFileImtype s = some (mapKeyword k) ∧
    (k = "image" → mapKeyword k = "flux") ∧
    (k = "signif" → mapKeyword k = "snr") ∧
    (k = "varmap" → mapKeyword k = "stddev") ∧
    (k = "pcode" → mapKeyword k = "pcode") ∧
    k ≠ "exposure" ∧
    mapKeyword k ∈ accepted_image_types := by
  have hmem : k ∈ file_extension_names := by
    refine List.mem_of_mem_filter (p := fun n => strHasSub n s) ?_
    cases hfl : (file_extension_names.filter (fun n => strHasSub n s)) with
    | nil =>
      rw [classifyKeyword, hfl] at hk
      exact Option.noConfusion hk
    | cons a t =>
      rw [classifyKeyword, hfl] at hk
      obtain rfl : a = k := Option.some.inj hk
      exact List.mem_cons_self a t
  have h4 : k = "image" ∨ k = "pcode" ∨ k = "signif" ∨ k = "varmap" := by
    simpa [file_extension_names] using hmem
  refine ⟨?_, ?_, ?_, ?_, ?_, ?_, ?_⟩
  · unfold fromFileImtype
    rw [hk]
    rfl
  · intro h; subst h; decide
  · intro h; subst h; decide
  · intro h; subst h; decide
  · intro h; subst h; decide
  · rcases h4 with h | h | h | h <;> subst h <;> decide
  · rcases h4 with h | h | h | h <;> subst h <;> decide

/-- Witness for C8: the extension name `"bat_image"` classifies to the
keyword `"image"`, which is mapped to the `image_type` `"flux"`. -/
theorem from_file_imtype_mapping_witness :
    classifyKeyword "bat_image" = some "image" ∧
    (fromFileImtype "bat_image" = some (mapKeyword "image") ∧
    ("image" = "image" → mapKeyword "image" = "flux") ∧
    ("image" = "signif" → mapKeyword "image" = "snr") ∧
    ("image" = "varmap" → mapKeyword "image" = "stddev") ∧
    ("image" = "pcode" → mapKeyword "image" = "pcode") ∧
    "image" ≠ "exposure" ∧
    mapKeyword "image" ∈ accepted_image_types) :=
  ⟨by decide, from_file_imtype_mapping "bat_image" "image" (by decide)⟩
